import Mathlib

/-!
Shallow embedding of the signal-analytics pipeline of the repository:
outcome inference (`src/data_processing/outcome_inference.py`),
risk/reward and portfolio metrics (`src/data_processing/metrics_calculator.py`),
data cleaning (`src/data_processing/data_standardizer.py`, `src/utils/helpers.py`)
and winrate/trend computation (`src/data_processing/winrate_calculator.py`).

Null cells (pandas NaN / None) are modelled as `Option`; numeric cells as `ℚ`
(the claims under study are about null-propagation and threshold logic, not
about binary floating-point rounding); text cells as `String`, with Python's
`lower`/`strip`/`in` operators modelled on the underlying character lists.
-/

namespace LuxQuant

/-! ## Python string primitives -/

/-- Python `str.lower()` (restricted to the ASCII lowering `Char.toLower`;
all patterns matched by the pipeline are ASCII). -/
def pyLower (s : String) : String := ⟨s.data.map Char.toLower⟩

/-- Whitespace test used by `str.strip()`. -/
def isSpaceChar (c : Char) : Bool := c = ' ' || c = '\t' || c = '\n' || c = '\r'

/-- Python `str.strip()` on a character list. -/
def stripChars (l : List Char) : List Char :=
  ((l.dropWhile isSpaceChar).reverse.dropWhile isSpaceChar).reverse

/-- Python `str.strip()`. -/
def pyStrip (s : String) : String := ⟨stripChars s.data⟩

/-- Substring test on character lists: `pat` occurs contiguously in `s`
(Python's `pat in s`). -/
def listContainsSub (pat : List Char) : List Char → Bool
  | [] => pat.isEmpty
  | c :: t => pat.isPrefixOf (c :: t) || listContainsSub pat t

/-- Python `pat in s` for strings. -/
def containsSub (s pat : String) : Bool := listContainsSub pat.data s.data

/-- `lower().strip()` normalization applied by `normalize_update_type`. -/
def normText (s : String) : String := pyStrip (pyLower s)

/-! ## `config/settings.py` -/

/-- `OUTCOME_RANKING` from `src/config/settings.py`: outcome label → rank. -/
def OUTCOME_RANKING (s : String) : Option Nat :=
  if s = "sl" then some 0
  else if s = "tp1" then some 1
  else if s = "tp2" then some 2
  else if s = "tp3" then some 3
  else if s = "tp4" then some 4
  else none

/-- The inverse ranking map `inv_rank` built in `calculate_final_outcomes`,
with default `"open"` (`inv_rank.get(r, "open")`). -/
def inv_rank (r : Nat) : String :=
  if r = 0 then "sl"
  else if r = 1 then "tp1"
  else if r = 2 then "tp2"
  else if r = 3 then "tp3"
  else if r = 4 then "tp4"
  else "open"

/-! ## `outcome_inference.py`: normalize_update_type -/

/-- `tp_patterns` of `normalize_update_type` (highest target first). -/
def tp_patterns : List (List String × String) :=
  [(["tp4", "target 4", "target4", "t4"], "tp4"),
   (["tp3", "target 3", "target3", "t3"], "tp3"),
   (["tp2", "target 2", "target2", "t2"], "tp2"),
   (["tp1", "target 1", "target1", "t1"], "tp1")]

/-- `sl_patterns` of `normalize_update_type`. -/
def sl_patterns : List String := ["sl", "stop", "stop loss", "stoploss"]

/-- `hit_patterns` of `normalize_update_type` (checked only when `"hit"` occurs). -/
def hit_patterns : List (List String × String) :=
  [(["4", "tp4", "target 4"], "tp4"),
   (["3", "tp3", "target 3"], "tp3"),
   (["2", "tp2", "target 2"], "tp2"),
   (["1", "tp1", "target 1"], "tp1")]

/-- The `"reached"` elif-chain of `normalize_update_type`, as a pattern table. -/
def reached_patterns : List (List String × String) :=
  [(["4", "tp4"], "tp4"),
   (["3", "tp3"], "tp3"),
   (["2", "tp2"], "tp2"),
   (["1", "tp1"], "tp1")]

/-- `any(pattern in s for pattern in patterns)`. -/
def matchFamily (s : String) (pats : List String) : Bool :=
  pats.any (fun p => containsSub s p)

/-- First pattern family (in list order) whose patterns match `s`. -/
def firstFamily (s : String) : List (List String × String) → Option String
  | [] => none
  | (ps, r) :: t => if matchFamily s ps then some r else firstFamily s t

/-- The `"hit"` branch: pattern families consulted only if `"hit" in s`. -/
def hitResult (s : String) : Option String :=
  if containsSub s "hit" then firstFamily s hit_patterns else none

/-- The `"reached"` branch: elif-chain consulted only if `"reached" in s`. -/
def reachedResult (s : String) : Option String :=
  if containsSub s "reached" then firstFamily s reached_patterns else none

/-- `normalize_update_type` from `src/data_processing/outcome_inference.py`:
None for NaN input; otherwise lowercase+strip, then TP families (tp4 first),
then SL patterns, then the `"hit"` families, then the `"reached"` chain,
else the normalized text itself. -/
def normalize_update_type (v : Option String) : Option String :=
  match v with
  | none => none
  | some raw =>
    let s := normText raw
    some (match firstFamily s tp_patterns with
      | some r => r
      | none =>
        if matchFamily s sl_patterns then "sl"
        else match hitResult s with
          | some r => r
          | none =>
            match reachedResult s with
            | some r => r
            | none => s)

/-! ## `outcome_inference.py`: calculate_final_outcomes -/

/-- One row of the updates table (the two columns the inference uses). -/
structure UpdateRow where
  signal_id : String
  update_type : Option String
deriving DecidableEq

/-- `upd["rank"] = upd["update_type_norm"].map(OUTCOME_RANKING)`:
rank of one update row, `none` when unrecognized. -/
def rankOf (u : UpdateRow) : Option Nat :=
  (normalize_update_type u.update_type).bind OUTCOME_RANKING

/-- All ranks of the recognized updates belonging to signal `sid`. -/
def ranksFor (upd : List UpdateRow) (sid : String) : List Nat :=
  (upd.filter (fun u => u.signal_id = sid)).filterMap rankOf

/-- Maximum of a list of naturals (`none` on the empty list);
models the `max_rank=("rank","max")` aggregation of the groupby. -/
def maxNat (l : List Nat) : Option Nat :=
  match l with
  | [] => none
  | _ => some (l.foldr max 0)

/-- Per-signal result of `calculate_final_outcomes`: `none` when the signal
has no recognized update (it is then absent from the outcome table);
otherwise `(final_outcome, tp_level)` with `tp_level` the maximum rank and
`final_outcome = inv_rank tp_level`. -/
def finalOutcome (upd : List UpdateRow) (sid : String) : Option (String × Nat) :=
  match maxNat (ranksFor upd sid) with
  | none => none
  | some r => some (inv_rank r, r)

/-- The distinct signal ids that own at least one recognized update,
in first-occurrence order (pandas `groupby` additionally sorts the keys;
no claim under study depends on the row order of the outcome table). -/
def outcome_keys (upd : List UpdateRow) : List String :=
  ((upd.filter (fun u => (rankOf u).isSome)).map (fun u => u.signal_id)).dedup

/-- The outcome table returned by `calculate_final_outcomes`:
one row `(signal_id, (final_outcome, tp_level))` per key. -/
def outcomesTable (upd : List UpdateRow) : List (String × String × Nat) :=
  (outcome_keys upd).filterMap
    (fun sid => (finalOutcome upd sid).map (fun p => (sid, p)))

/-! ## `metrics_calculator.py`: risk/reward ratios -/

/-- The price columns of one signal row used by `calculate_rr_metrics`
(null cells are `none`). -/
structure SignalRow where
  entry : Option ℚ
  target1 : Option ℚ
  target2 : Option ℚ
  target3 : Option ℚ
  target4 : Option ℚ
  stop1 : Option ℚ
  stop2 : Option ℚ
deriving DecidableEq

/-- `target{i}` column accessor. -/
def targetOf (r : SignalRow) : Nat → Option ℚ
  | 1 => r.target1
  | 2 => r.target2
  | 3 => r.target3
  | 4 => r.target4
  | _ => none

/-- `stop_used = np.where(stop1.notna(), stop1, stop2)` (identically,
`stop1.fillna(stop2)` in `data_standardizer._calculate_rr_ratios`). -/
def stop_used (r : SignalRow) : Option ℚ :=
  match r.stop1 with
  | some s => some s
  | none => r.stop2

/-- `np.abs(a - b)` under NaN propagation: null when either side is null. -/
def absDiff (a b : Option ℚ) : Option ℚ :=
  match a, b with
  | some x, some y => some |x - y|
  | _, _ => none

/-- `risk_distance = np.abs(entry - stop_used)`. -/
def risk_distance (r : SignalRow) : Option ℚ :=
  absDiff r.entry (stop_used r)

/-- `reward_distance = np.abs(target_i - entry)` for target `i`. -/
def reward_distance (r : SignalRow) (i : Nat) : Option ℚ :=
  absDiff (targetOf r i) r.entry

/-- `calculate_rr_ratio` from `metrics_calculator.py` (the name here carries a
`_fn` suffix for tooling reasons only):
`np.where((risk>0) & risk.notna() & reward.notna(), reward/risk, np.nan)`.
The NaN comparison `NaN > 0` is false, so the division is taken exactly when
both operands are non-null and the risk is strictly positive. -/
def calculate_rr_ratio_fn (reward risk : Option ℚ) : Option ℚ :=
  match reward, risk with
  | some rw, some rk => if 0 < rk then some (rw / rk) else none
  | _, _ => none

/-- `rr_target{i}` column. -/
def rr_target (r : SignalRow) (i : Nat) : Option ℚ :=
  calculate_rr_ratio_fn (reward_distance r i) (risk_distance r)

/-- `get_highest_target`: scan `target4 → target3 → target2 → target1`,
first non-null wins. -/
def highest_target (r : SignalRow) : Option ℚ :=
  match r.target4 with
  | some t => some t
  | none =>
    match r.target3 with
    | some t => some t
    | none =>
      match r.target2 with
      | some t => some t
      | none => r.target1

/-- `rr_planned`: RR against the highest available target. -/
def rr_planned (r : SignalRow) : Option ℚ :=
  calculate_rr_ratio_fn (absDiff (highest_target r) r.entry) (risk_distance r)

/-! ## `metrics_calculator.py`: performance flags and portfolio metrics -/

/-- `is_winner = final_outcome.str.startswith("tp", na=False)`. -/
def is_winner (o : Option String) : Bool :=
  match o with
  | some s => ("tp".data).isPrefixOf s.data
  | none => false

/-- `is_loser = final_outcome == "sl"`. -/
def is_loser (o : Option String) : Bool := o = some "sl"

/-- `is_open = final_outcome.isna() | (final_outcome == "open")`. -/
def is_open (o : Option String) : Bool :=
  match o with
  | some s => s = "open"
  | none => true

/-- `closed_trades = (~is_open).sum()` over the `final_outcome` column. -/
def closed_trades (df : List (Option String)) : Nat :=
  (df.filter (fun o => !is_open o)).length

/-- `tp_hits = is_winner.sum()`. -/
def tp_hits (df : List (Option String)) : Nat :=
  (df.filter is_winner).length

/-- `win_rate` of `calculate_portfolio_metrics`:
`tp_hits / closed_trades * 100` when `closed_trades > 0`, else `0`. -/
def win_rate (df : List (Option String)) : ℚ :=
  if 0 < closed_trades df then
    (tp_hits df : ℚ) / (closed_trades df : ℚ) * 100
  else 0

/-! ## `compute_comprehensive_metrics`: left merge with the outcome table -/

/-- A signal row as it enters the merge: its id plus its price columns. -/
structure SigIdRow where
  signal_id : String
  prices : SignalRow
deriving DecidableEq

/-- Merge contribution of one left row: one output row per matching outcome
row, or a single row with null outcome columns when no outcome row matches. -/
def mergeRow (out : List (String × String × Nat)) (srow : SigIdRow) :
    List (SigIdRow × Option (String × Nat)) :=
  match out.filter (fun o => o.1 = srow.signal_id) with
  | [] => [(srow, none)]
  | ms => ms.map (fun o => (srow, some o.2))

/-- pandas `signals.merge(outcomes, on="signal_id", how="left")`. -/
def leftMerge (sigs : List SigIdRow) (out : List (String × String × Nat)) :
    List (SigIdRow × Option (String × Nat)) :=
  sigs.flatMap (mergeRow out)

/-! ## `data_standardizer.py` / `helpers.py`: cleaning -/

/-- Price range validation of `DataStandardizer._clean_data`:
`df.loc[df[col] < 0, col] = np.nan` then `df.loc[df[col] > 1000000, col] = np.nan`
(a NaN cell compares false on both tests and stays NaN). -/
def clamp_price (v : Option ℚ) : Option ℚ :=
  match v with
  | none => none
  | some x => if x < 0 then none else if 1000000 < x then none else some x

/-- Price range validation of `helpers.clean_data`:
`df.loc[df[col] <= 0, col] = np.nan` then `df.loc[df[col] > 1000000, col] = np.nan`. -/
def clamp_price_helpers (v : Option ℚ) : Option ℚ :=
  match v with
  | none => none
  | some x => if x ≤ 0 then none else if 1000000 < x then none else some x

/-- The price-validation step of `_clean_data` applied to one row: per-column
value clamping, the row itself kept. -/
def clean_prices_row (r : SignalRow) : SignalRow :=
  { entry := clamp_price r.entry
    target1 := clamp_price r.target1
    target2 := clamp_price r.target2
    target3 := clamp_price r.target3
    target4 := clamp_price r.target4
    stop1 := clamp_price r.stop1
    stop2 := clamp_price r.stop2 }

/-- The price-validation step of `_clean_data` over the whole table. -/
def clean_prices (df : List SignalRow) : List SignalRow :=
  df.map clean_prices_row

/-- String-cell standardization of `_standardize_data_types`:
`astype(str)` then `replace("nan", None).replace("None", None)` — a NaN/None
cell round-trips to null, the literal texts `"nan"`/`"None"` become null too. -/
def std_string_cell (v : Option String) : Option String :=
  match v with
  | none => none
  | some s => if s = "nan" || s = "None" then none else some s

/-- Pair cleaning of `DataStandardizer._clean_data`:
`str.upper()` then `str.replace(" ", "")` (both skip nulls), then
`fillna("UNKNOWN")`. -/
def clean_pair (p : Option String) : Option String :=
  match p with
  | none => some "UNKNOWN"
  | some s => some ⟨(s.data.map Char.toUpper).filter (fun c => c ≠ ' ')⟩

/-- The `pair` column as produced by the standardizer pipeline
(`_standardize_data_types` then `_clean_data`) from a raw string cell. -/
def standardized_pair (p : Option String) : Option String :=
  clean_pair (std_string_cell p)

/-! ## `winrate_calculator.py`: trend -/

/-- Valid (non-NaN) winrate points with their original row indices:
`x = arange(len); mask = ~isnan(y); (x[mask], y[mask])`. -/
def validPoints (data : List (Option ℚ)) : List (ℚ × ℚ) :=
  data.enum.filterMap (fun p => p.2.map (fun y => ((p.1 : ℚ), y)))

/-- The degree-1 `np.polyfit` slope: the ordinary-least-squares slope
`(n·Σxy − Σx·Σy) / (n·Σx² − (Σx)²)`. -/
def olsSlope (pts : List (ℚ × ℚ)) : ℚ :=
  let n : ℚ := pts.length
  let sx := (pts.map Prod.fst).sum
  let sy := (pts.map Prod.snd).sum
  let sxy := (pts.map (fun p => p.1 * p.2)).sum
  let sxx := (pts.map (fun p => p.1 * p.1)).sum
  (n * sxy - sx * sy) / (n * sxx - sx * sx)

/-- The slope-threshold cascade of `calculate_winrate_trend`. -/
def classify_slope (slope : ℚ) : String :=
  if 2 < slope then "strongly_improving"
  else if 1/2 < slope then "improving"
  else if slope < -2 then "strongly_declining"
  else if slope < -1/2 then "declining"
  else "stable"

/-- `round(x, 3)` applied to the reported slope (Mathlib's `round`; Python's
banker's rounding differs only at exact half-thousandths, and the
classification below is computed from the unrounded slope in the source). -/
def round3 (q : ℚ) : ℚ := (round (q * 1000) : ℤ) / 1000

/-- Result record of `calculate_winrate_trend` (the fields the claims use). -/
structure TrendResult where
  trend : String
  slope : ℚ
deriving DecidableEq

/-- `calculate_winrate_trend` from `winrate_calculator.py`: the
`insufficient_data` sentinel when the input has fewer than 2 rows or fewer
than 2 valid points, otherwise the OLS slope and its classification. -/
def calculate_winrate_trend (data : List (Option ℚ)) : TrendResult :=
  if data.length < 2 then ⟨"insufficient_data", 0⟩
  else if (validPoints data).length < 2 then ⟨"insufficient_data", 0⟩
  else ⟨classify_slope (olsSlope (validPoints data)), round3 (olsSlope (validPoints data))⟩

/-! ## `winrate_calculator.py`: time-range filter

Timestamps are modelled as integer seconds since the Unix epoch (pandas
stores a `Timestamp` as an integer offset from the epoch); the civil
(proleptic Gregorian) calendar used by `pd.Timestamp(year, month, 1)` is
embedded through the standard days↔civil conversion. -/

def secPerDay : Int := 86400

/-- Civil date `(year, month, day)` of a day number (days since 1970-01-01),
proleptic Gregorian calendar. -/
def civilFromDays (z0 : Int) : Int × Int × Int :=
  let z := z0 + 719468
  let era := Int.ediv z 146097
  let doe := z - era * 146097
  let yoe := Int.ediv (doe - Int.ediv doe 1460 + Int.ediv doe 36524 - Int.ediv doe 146096) 365
  let y := yoe + era * 400
  let doy := doe - (365 * yoe + Int.ediv yoe 4 - Int.ediv yoe 100)
  let mp := Int.ediv (5 * doy + 2) 153
  let d := doy - Int.ediv (153 * mp + 2) 5 + 1
  let m := mp + (if mp < 10 then 3 else -9)
  (if m ≤ 2 then y + 1 else y, m, d)

/-- Day number of a civil date, inverse of `civilFromDays`. -/
def daysFromCivil (y0 m d : Int) : Int :=
  let y := if m ≤ 2 then y0 - 1 else y0
  let era := Int.ediv y 400
  let yoe := y - era * 400
  let doy := Int.ediv (153 * (m + (if 2 < m then -3 else 9)) + 2) 5 + d - 1
  let doe := yoe * 365 + Int.ediv yoe 4 - Int.ediv yoe 100 + doy
  era * 146097 + doe - 719468

/-- `now.year`. -/
def tsYear (t : Int) : Int := (civilFromDays (Int.ediv t secPerDay)).1

/-- `now.month`. -/
def tsMonth (t : Int) : Int := (civilFromDays (Int.ediv t secPerDay)).2.1

/-- `pd.Timestamp(now.year, 1, 1)`. -/
def startOfYear (t : Int) : Int := daysFromCivil (tsYear t) 1 1 * secPerDay

/-- `pd.Timestamp(now.year, now.month, 1)`. -/
def startOfMonth (t : Int) : Int := daysFromCivil (tsYear t) (tsMonth t) 1 * secPerDay

/-- One row as seen by the period-winrate path: creation time and outcome. -/
structure PeriodRow where
  signal_id : String
  created_at : Int
  final_outcome : Option String
deriving DecidableEq

/-- `apply_time_range_filter` from `winrate_calculator.py`: `'all'` returns
the table as-is; `'ytd'`/`'mtd'`/`'30d'`/`'7d'` keep rows with
`created_at >= cutoff`; every other value falls through to `return df`. -/
def apply_time_range_filter (now : Int) (df : List PeriodRow) (tr : String) :
    List PeriodRow :=
  if tr = "all" then df
  else if tr = "ytd" then df.filter (fun r => startOfYear now ≤ r.created_at)
  else if tr = "mtd" then df.filter (fun r => startOfMonth now ≤ r.created_at)
  else if tr = "30d" then df.filter (fun r => now - 30 * secPerDay ≤ r.created_at)
  else if tr = "7d" then df.filter (fun r => now - 7 * secPerDay ≤ r.created_at)
  else df

/-! ## Claim C5: spec-side priority cascade -/

/-- Spec-side predicate: the normalized text matches the TP pattern family of
target `i` (exact/substring patterns, as listed in the spec). -/
def tpMatch (s : String) : Nat → Bool
  | 4 => matchFamily s ["tp4", "target 4", "target4", "t4"]
  | 3 => matchFamily s ["tp3", "target 3", "target3", "t3"]
  | 2 => matchFamily s ["tp2", "target 2", "target2", "t2"]
  | 1 => matchFamily s ["tp1", "target 1", "target1", "t1"]
  | _ => false

/-- Spec-side predicate: the normalized text matches an SL pattern
("sl", "stop", "stop loss", "stoploss"). -/
def slMatch (s : String) : Bool := matchFamily s sl_patterns

/-- Spec-side predicate: "hit" phrasing variant for target `i`. -/
def hitMatch (s : String) : Nat → Bool
  | 4 => containsSub s "hit" && matchFamily s ["4", "tp4", "target 4"]
  | 3 => containsSub s "hit" && matchFamily s ["3", "tp3", "target 3"]
  | 2 => containsSub s "hit" && matchFamily s ["2", "tp2", "target 2"]
  | 1 => containsSub s "hit" && matchFamily s ["1", "tp1", "target 1"]
  | _ => false

/-- Spec-side predicate: "reached" phrasing variant for target `i`. -/
def reachedMatch (s : String) : Nat → Bool
  | 4 => containsSub s "reached" && matchFamily s ["4", "tp4"]
  | 3 => containsSub s "reached" && matchFamily s ["3", "tp3"]
  | 2 => containsSub s "reached" && matchFamily s ["2", "tp2"]
  | 1 => containsSub s "reached" && matchFamily s ["1", "tp1"]
  | _ => false

/-- Spec-side cascade, written from the spec's words: TP families in priority
order TP4 > TP3 > TP2 > TP1, then SL, then "hit" variants TP4-first, then
"reached" variants TP4-first, else the normalized text unchanged. -/
def spec_priority_cascade (s : String) : String :=
  if tpMatch s 4 then "tp4"
  else if tpMatch s 3 then "tp3"
  else if tpMatch s 2 then "tp2"
  else if tpMatch s 1 then "tp1"
  else if slMatch s then "sl"
  else if hitMatch s 4 then "tp4"
  else if hitMatch s 3 then "tp3"
  else if hitMatch s 2 then "tp2"
  else if hitMatch s 1 then "tp1"
  else if reachedMatch s 4 then "tp4"
  else if reachedMatch s 3 then "tp3"
  else if reachedMatch s 2 then "tp2"
  else if reachedMatch s 1 then "tp1"
  else s

/-! ## Helper lemmas -/

lemma le_foldrMax {l : List Nat} {x : Nat} (hx : x ∈ l) : x ≤ l.foldr max 0 := by
  induction l with
  | nil => cases hx
  | cons a t ih =>
    rcases List.mem_cons.mp hx with h | h
    · subst h; exact le_max_left _ _
    · exact le_trans (ih h) (le_max_right _ _)

lemma foldrMax_le {l : List Nat} {b : Nat} (h : ∀ x ∈ l, x ≤ b) : l.foldr max 0 ≤ b := by
  induction l with
  | nil => exact Nat.zero_le b
  | cons a t ih =>
    exact max_le (h a (List.mem_cons_self a t)) (ih (fun x hx => h x (List.mem_cons_of_mem a hx)))

lemma foldrMax_mem {l : List Nat} (h : l ≠ []) : l.foldr max 0 ∈ l := by
  induction l with
  | nil => exact absurd rfl h
  | cons a t ih =>
    cases t with
    | nil => simp
    | cons b u =>
      rw [List.foldr_cons]
      rcases max_choice a ((b :: u).foldr max 0) with hm | hm
      · rw [hm]; exact List.mem_cons_self _ _
      · rw [hm]; exact List.mem_cons_of_mem a (ih (by simp))

lemma maxNat_eq_some_iff {l : List Nat} {r : Nat} :
    maxNat l = some r ↔ (r ∈ l ∧ ∀ x ∈ l, x ≤ r) := by
  constructor
  · intro h
    cases l with
    | nil => simp [maxNat] at h
    | cons a t =>
      have hr : (a :: t).foldr max 0 = r := by simpa [maxNat] using h
      exact hr ▸ ⟨foldrMax_mem (by simp), fun x hx => le_foldrMax hx⟩
  · rintro ⟨hmem, hub⟩
    cases l with
    | nil => cases hmem
    | cons a t =>
      have := Nat.le_antisymm (foldrMax_le hub) (le_foldrMax hmem)
      simpa [maxNat] using this

lemma maxNat_perm {l₁ l₂ : List Nat} (h : l₁.Perm l₂) : maxNat l₁ = maxNat l₂ := by
  cases h1 : l₁ with
  | nil =>
    have : l₂ = [] := List.Perm.eq_nil (h1 ▸ h).symm
    simp [this, maxNat]
  | cons a t =>
    have hne₁ : l₁ ≠ [] := by simp [h1]
    have hne₂ : l₂ ≠ [] := by
      intro h2
      exact hne₁ (List.Perm.eq_nil (h2 ▸ h))
    have hle : l₁.foldr max 0 ≤ l₂.foldr max 0 :=
      le_foldrMax (h.mem_iff.mp (foldrMax_mem hne₁))
    have hge : l₂.foldr max 0 ≤ l₁.foldr max 0 :=
      le_foldrMax (h.mem_iff.mpr (foldrMax_mem hne₂))
    have hfold : l₁.foldr max 0 = l₂.foldr max 0 := Nat.le_antisymm hle hge
    rw [h1] at hfold
    cases h2 : l₂ with
    | nil => exact absurd h2 hne₂
    | cons b u =>
      rw [h2] at hfold
      simp [maxNat, hfold]

lemma ranksFor_perm {upd upd' : List UpdateRow} (sid : String) (h : upd.Perm upd') :
    (ranksFor upd sid).Perm (ranksFor upd' sid) :=
  (h.filter _).filterMap _

lemma finalOutcome_perm {upd upd' : List UpdateRow} (sid : String) (h : upd.Perm upd') :
    finalOutcome upd sid = finalOutcome upd' sid := by
  unfold finalOutcome
  rw [maxNat_perm (ranksFor_perm sid h)]

/-! ## Claim theorems -/

/-- Claim C1: per signal, outcome inference yields the outcome whose rank is the
maximum rank over all of that signal's recognized updates (and its label is the
inverse-ranking image of that rank); the result is invariant under any
permutation of the update rows, and inference is a pure function of the update
set, so re-running it on the same updates yields the same outcome. -/
theorem outcome_inference_max_rank_order_independent
    (upd upd' : List UpdateRow) (sid : String) (h : upd.Perm upd') :
    finalOutcome upd sid = finalOutcome upd' sid ∧
    (∀ o r, finalOutcome upd sid = some (o, r) ↔
      (r ∈ ranksFor upd sid ∧ (∀ x ∈ ranksFor upd sid, x ≤ r) ∧ o = inv_rank r)) := by
  refine ⟨finalOutcome_perm sid h, fun o r => ?_⟩
  constructor
  · intro hfo
    unfold finalOutcome at hfo
    cases hm : maxNat (ranksFor upd sid) with
    | none => rw [hm] at hfo; cases hfo
    | some r' =>
      rw [hm] at hfo
      have hr : r' = r ∧ inv_rank r' = o := by
        cases hfo; exact ⟨rfl, rfl⟩
      rcases hr with ⟨hr1, hr2⟩
      subst hr1
      have := maxNat_eq_some_iff.mp hm
      exact ⟨this.1, this.2, hr2.symm⟩
  · rintro ⟨hmem, hub, ho⟩
    have : maxNat (ranksFor upd sid) = some r := maxNat_eq_some_iff.mpr ⟨hmem, hub⟩
    unfold finalOutcome
    rw [this, ho]

/-- Witness for C1: on the concrete update set
{("s1","TP1 hit"), ("s1","target 2 reached")}, the inferred outcome is
invariant under swapping the two rows, and equals ("tp2", 2). -/
theorem outcome_inference_max_rank_order_independent_witness :
    finalOutcome [⟨"s1", some "TP1 hit"⟩, ⟨"s1", some "target 2 reached"⟩] "s1"
      = finalOutcome [⟨"s1", some "target 2 reached"⟩, ⟨"s1", some "TP1 hit"⟩] "s1" ∧
    finalOutcome [⟨"s1", some "TP1 hit"⟩, ⟨"s1", some "target 2 reached"⟩] "s1"
      = some ("tp2", 2) :=
  ⟨(outcome_inference_max_rank_order_independent
      [⟨"s1", some "TP1 hit"⟩, ⟨"s1", some "target 2 reached"⟩]
      [⟨"s1", some "target 2 reached"⟩, ⟨"s1", some "TP1 hit"⟩]
      "s1" (List.Perm.swap _ _ _)).1,
   by decide⟩

/-- Claim C4: a signal none of whose updates is recognized by any TP or SL
pattern (in particular a signal with no updates at all) gets no inferred
outcome: `finalOutcome` is `none` and the signal is absent from the outcome
table — it is never defaulted to "sl". -/
theorem unrecognized_updates_yield_open
    (upd : List UpdateRow) (sid : String)
    (h : ∀ u ∈ upd, u.signal_id = sid → rankOf u = none) :
    finalOutcome upd sid = none ∧ ∀ p ∈ outcomesTable upd, p.1 ≠ sid := by
  have hranks : ranksFor upd sid = [] := by
    apply List.filterMap_eq_nil_iff.mpr
    intro u hu
    have := List.mem_filter.mp hu
    exact h u this.1 (by simpa using this.2)
  have hfo : finalOutcome upd sid = none := by
    unfold finalOutcome
    rw [hranks]
    rfl
  refine ⟨hfo, fun p hp hps => ?_⟩
  rcases List.mem_filterMap.mp hp with ⟨sid', _, hmap⟩
  rcases Option.map_eq_some'.mp hmap with ⟨q, hq, hpq⟩
  have : sid' = sid := by rw [← hps, ← hpq]
  rw [this] at hq
  rw [hfo] at hq
  cases hq

/-- Witness for C4: a signal whose sole update is the unrecognized text
"mooning" (next to another signal with a recognized update) yields no outcome
and is absent from the outcome table. -/
theorem unrecognized_updates_yield_open_witness :
    finalOutcome [⟨"s1", some "mooning"⟩, ⟨"s2", some "tp4"⟩] "s1" = none ∧
    ∀ p ∈ outcomesTable [⟨"s1", some "mooning"⟩, ⟨"s2", some "tp4"⟩], p.1 ≠ "s1" :=
  unrecognized_updates_yield_open
    [⟨"s1", some "mooning"⟩, ⟨"s2", some "tp4"⟩] "s1" (by decide)

lemma reached_part (s : String) :
    (match reachedResult s with
      | some r => r
      | none => s) =
    (if reachedMatch s 4 then "tp4"
     else if reachedMatch s 3 then "tp3"
     else if reachedMatch s 2 then "tp2"
     else if reachedMatch s 1 then "tp1"
     else s) := by
  unfold reachedResult reachedMatch reached_patterns
  cases hr : containsSub s "reached" <;>
    cases k4 : matchFamily s ["4", "tp4"] <;>
    cases k3 : matchFamily s ["3", "tp3"] <;>
    cases k2 : matchFamily s ["2", "tp2"] <;>
    cases k1 : matchFamily s ["1", "tp1"] <;>
    simp_all [firstFamily]

lemma tail_part (s : String) :
    (match hitResult s with
      | some r => r
      | none =>
        match reachedResult s with
        | some r => r
        | none => s) =
    (if hitMatch s 4 then "tp4"
     else if hitMatch s 3 then "tp3"
     else if hitMatch s 2 then "tp2"
     else if hitMatch s 1 then "tp1"
     else if reachedMatch s 4 then "tp4"
     else if reachedMatch s 3 then "tp3"
     else if reachedMatch s 2 then "tp2"
     else if reachedMatch s 1 then "tp1"
     else s) := by
  have hrp := reached_part s
  unfold hitResult hitMatch hit_patterns
  cases hhit : containsSub s "hit" <;>
    cases g4 : matchFamily s ["4", "tp4", "target 4"] <;>
    cases g3 : matchFamily s ["3", "tp3", "target 3"] <;>
    cases g2 : matchFamily s ["2", "tp2", "target 2"] <;>
    cases g1 : matchFamily s ["1", "tp1", "target 1"] <;>
    simp_all [firstFamily]

/-- Claim C5: `normalize_update_type` first lowercases and strips the raw text
(the result depends on the input only through `normText`), then applies exactly
the spec's priority cascade: TP4 > TP3 > TP2 > TP1 pattern families, then SL
patterns, then "hit"/"reached" phrasing variants with the same TP4-first
precedence, returning the normalized text itself when nothing matches. -/
lemma normalize_some (raw : String) :
    normalize_update_type (some raw) =
      some (match firstFamily (normText raw) tp_patterns with
        | some r => r
        | none =>
          if matchFamily (normText raw) sl_patterns then "sl"
          else
            match hitResult (normText raw) with
            | some r => r
            | none =>
              match reachedResult (normText raw) with
              | some r => r
              | none => normText raw) := rfl

lemma firstFamily_tp (s : String) :
    firstFamily s tp_patterns =
      (if tpMatch s 4 then some "tp4"
       else if tpMatch s 3 then some "tp3"
       else if tpMatch s 2 then some "tp2"
       else if tpMatch s 1 then some "tp1"
       else none) := by
  simp only [tp_patterns, firstFamily, tpMatch]

theorem normalize_update_type_priority_order (raw : String) :
    normalize_update_type (some raw) = some (spec_priority_cascade (normText raw)) := by
  have ht := tail_part (normText raw)
  rw [normalize_some raw, firstFamily_tp (normText raw)]
  unfold spec_priority_cascade
  cases h4 : tpMatch (normText raw) 4 with
  | true => simp [h4]
  | false =>
  cases h3 : tpMatch (normText raw) 3 with
  | true => simp [h4, h3]
  | false =>
  cases h2 : tpMatch (normText raw) 2 with
  | true => simp [h4, h3, h2]
  | false =>
  cases h1 : tpMatch (normText raw) 1 with
  | true => simp [h4, h3, h2, h1]
  | false =>
  cases hsl : slMatch (normText raw) with
  | true =>
    have hsl' : matchFamily (normText raw) sl_patterns = true := hsl
    simp [h4, h3, h2, h1, hsl, hsl']
  | false =>
    have hsl' : matchFamily (normText raw) sl_patterns = false := hsl
    simp only [h4, h3, h2, h1, hsl, hsl', if_false, Bool.false_eq_true, if_neg,
      Bool.false_eq_true, reduceIte]
    exact congrArg some ht

lemma rr_ratio_fn_spec (reward risk : Option ℚ) :
    (calculate_rr_ratio_fn reward risk ≠ none ↔
      ∃ rw rk, reward = some rw ∧ risk = some rk ∧ 0 < rk) ∧
    (∀ rw rk, reward = some rw → risk = some rk → 0 < rk →
      calculate_rr_ratio_fn reward risk = some (rw / rk)) := by
  constructor
  · cases reward with
    | none => simp [calculate_rr_ratio_fn]
    | some rw =>
      cases risk with
      | none => simp [calculate_rr_ratio_fn]
      | some rk =>
        by_cases h : 0 < rk
        · simp [calculate_rr_ratio_fn, h]
        · simp [calculate_rr_ratio_fn, h]
  · rintro rw rk rfl rfl h
    simp [calculate_rr_ratio_fn, h]

/-- Claim C2: each per-target risk-reward ratio `rr_target{i}` (i = 1..4) and
the planned RR are `reward / risk` exactly when the risk distance is strictly
positive and both distances are non-null; in every other case the result is
null — the division is never taken on a zero or null risk, and no NaN leaks
into a non-null result. -/
theorem rr_ratio_null_safety (r : SignalRow) :
    (∀ i, 1 ≤ i → i ≤ 4 →
      ((rr_target r i ≠ none ↔
        ∃ rw rk, reward_distance r i = some rw ∧ risk_distance r = some rk ∧ 0 < rk) ∧
      (∀ rw rk, reward_distance r i = some rw → risk_distance r = some rk → 0 < rk →
        rr_target r i = some (rw / rk)))) ∧
    ((rr_planned r ≠ none ↔
      ∃ rw rk, absDiff (highest_target r) r.entry = some rw ∧
        risk_distance r = some rk ∧ 0 < rk) ∧
    (∀ rw rk, absDiff (highest_target r) r.entry = some rw → risk_distance r = some rk →
      0 < rk → rr_planned r = some (rw / rk))) :=
  ⟨fun i _ _ => rr_ratio_fn_spec (reward_distance r i) (risk_distance r),
   rr_ratio_fn_spec (absDiff (highest_target r) r.entry) (risk_distance r)⟩

/-- Witness for C2: for the row entry=100, target1=110, stop1=90, the target-1
RR is 10/10 = 1; for the row entry=100, target1=110, stop1=100 (zero risk
distance), it is null. -/
theorem rr_ratio_null_safety_witness :
    rr_target ⟨some 100, some 110, none, none, none, some 90, none⟩ 1 = some 1 ∧
    rr_target ⟨some 100, some 110, none, none, none, some 100, none⟩ 1 = none := by
  have hrw : reward_distance ⟨some 100, some 110, none, none, none, some 90, none⟩ 1
      = some 10 := by
    unfold reward_distance absDiff targetOf
    norm_num
  have hrk : risk_distance ⟨some 100, some 110, none, none, none, some 90, none⟩
      = some 10 := by
    unfold risk_distance absDiff stop_used
    norm_num
  constructor
  · have h := ((rr_ratio_null_safety
      ⟨some 100, some 110, none, none, none, some 90, none⟩).1 1 (by norm_num)
        (by norm_num)).2 10 10 hrw hrk (by norm_num)
    rw [h]
    norm_num
  · have hrk0 : risk_distance ⟨some 100, some 110, none, none, none, some 100, none⟩
        = some 0 := by
      unfold risk_distance absDiff stop_used
      norm_num
    by_contra hne
    have h := ((rr_ratio_null_safety
      ⟨some 100, some 110, none, none, none, some 100, none⟩).1 1 (by norm_num)
        (by norm_num)).1.mp hne
    rcases h with ⟨rw', rk, _, hrk', hpos⟩
    rw [hrk0] at hrk'
    have hz : (0 : ℚ) = rk := Option.some_inj.mp hrk'
    rw [← hz] at hpos
    exact lt_irrefl 0 hpos

lemma tp_hits_le_closed (df : List (Option String)) : tp_hits df ≤ closed_trades df := by
  unfold tp_hits closed_trades
  apply List.Sublist.length_le
  apply List.monotone_filter_right
  intro o hw
  cases o with
  | none => simp [is_winner] at hw
  | some s =>
    simp only [is_open, Bool.not_eq_true']
    by_contra hne
    have hs : s = "open" := by
      by_cases h : s = "open"
      · exact h
      · simp [h] at hne
    subst hs
    simp [is_winner] at hw

/-- Claim C6: the portfolio win rate `tp_hits / closed_trades * 100` lies in
[0, 100] for every signal set, and is exactly 0 (not a division error) when
there are no closed trades. -/
theorem win_rate_in_bounds (df : List (Option String)) :
    0 ≤ win_rate df ∧ win_rate df ≤ 100 ∧ (closed_trades df = 0 → win_rate df = 0) := by
  refine ⟨?_, ?_, ?_⟩
  · unfold win_rate
    split_ifs with h
    · positivity
    · exact le_refl 0
  · unfold win_rate
    split_ifs with h
    · have hle : (tp_hits df : ℚ) ≤ (closed_trades df : ℚ) := by
        exact_mod_cast tp_hits_le_closed df
      have hpos : (0 : ℚ) < (closed_trades df : ℚ) := by exact_mod_cast h
      have : (tp_hits df : ℚ) / (closed_trades df : ℚ) ≤ 1 :=
        (div_le_one hpos).mpr hle
      calc (tp_hits df : ℚ) / (closed_trades df : ℚ) * 100
          ≤ 1 * 100 := by nlinarith
        _ = 100 := by norm_num
    · norm_num
  · intro h
    unfold win_rate
    simp [h]

/-- Witness for C6: a set with outcomes {tp2, sl, open-null} has win rate 50,
inside [0,100]; the empty set (zero closed trades) has win rate 0. -/
theorem win_rate_in_bounds_witness :
    (0 ≤ win_rate [some "tp2", some "sl", none] ∧
      win_rate [some "tp2", some "sl", none] ≤ 100) ∧
    win_rate [] = 0 :=
  ⟨⟨(win_rate_in_bounds [some "tp2", some "sl", none]).1,
    (win_rate_in_bounds [some "tp2", some "sl", none]).2.1⟩,
   (win_rate_in_bounds []).2.2 (by decide)⟩

/-- Counterexample for C3: a price of exactly 0 is NOT nulled by the range
validation of `DataStandardizer._clean_data` (`df[col] < 0` is strict), so the
claim "nulls the value when it is negative or zero" fails at the concrete
input 0. -/
theorem clean_data_keeps_zero_price_cex :
    clamp_price (some 0) = some 0 ∧ clamp_price (some 0) ≠ none := by
  constructor
  · norm_num [clamp_price]
  · norm_num [clamp_price]
    exact Option.some_ne_none 0

/-- Claim C3 (amended): `DataStandardizer._clean_data` nulls a price exactly
when it is strictly negative or strictly above 1,000,000, keeping zero
(`helpers.clean_data` additionally nulls zero); in all cases the row itself is
kept — price validation is per-value and never drops a row. -/
theorem price_range_validation (x : ℚ) (df : List SignalRow) :
    (x < 0 → clamp_price (some x) = none) ∧
    (1000000 < x → clamp_price (some x) = none) ∧
    (0 ≤ x → x ≤ 1000000 → clamp_price (some x) = some x) ∧
    clamp_price none = none ∧
    (x ≤ 0 → clamp_price_helpers (some x) = none) ∧
    (1000000 < x → clamp_price_helpers (some x) = none) ∧
    (0 < x → x ≤ 1000000 → clamp_price_helpers (some x) = some x) ∧
    (clean_prices df).length = df.length := by
  refine ⟨?_, ?_, ?_, rfl, ?_, ?_, ?_, List.length_map df clean_prices_row⟩
  · intro h
    simp [clamp_price, h]
  · intro h
    have : ¬x < 0 := by linarith
    simp [clamp_price, h, this]
  · intro h0 h1
    have hn : ¬x < 0 := not_lt.mpr h0
    have hn' : ¬1000000 < x := not_lt.mpr h1
    simp [clamp_price, hn, hn']
  · intro h
    simp [clamp_price_helpers, h]
  · intro h
    have : ¬x ≤ 0 := by linarith
    simp [clamp_price_helpers, h, this]
  · intro h0 h1
    have hn : ¬x ≤ 0 := not_le.mpr h0
    have hn' : ¬1000000 < x := not_lt.mpr h1
    simp [clamp_price_helpers, hn, hn']

/-- Witness for C3 (amended): −5 is nulled, 2,000,000 is nulled, 7 is kept,
and a one-row table stays one row after price validation. -/
theorem price_range_validation_witness :
    clamp_price (some (-5)) = none ∧
    clamp_price (some 2000000) = none ∧
    clamp_price (some 7) = some 7 ∧
    (clean_prices [⟨some 7, none, none, none, none, none, none⟩]).length = 1 :=
  ⟨(price_range_validation (-5) []).1 (by norm_num),
   (price_range_validation 2000000 []).2.1 (by norm_num),
   (price_range_validation 7 []).2.2.1 (by norm_num) (by norm_num),
   (price_range_validation 0 [⟨some 7, none, none, none, none, none, none⟩]).2.2.2.2.2.2.2⟩

/-- Counterexample for C7: an input row whose pair cell is the empty string
comes out of the standardizer pipeline with pair = "" — neither a real pair
name nor the "UNKNOWN" sentinel, contradicting "never null nor empty". -/
theorem standardized_pair_empty_string_cex :
    standardized_pair (some "") = some "" ∧ standardized_pair (some "") ≠ some "UNKNOWN" := by
  constructor
  · rfl
  · decide

/-- Claim C7 (amended): the standardizer's output pair is never null: a null
(or "nan"/"None" text) cell becomes "UNKNOWN" and any other string is kept,
uppercased with spaces removed — but an input pair that is the empty string
(or consists only of spaces) yields the empty string, not "UNKNOWN"
(the `helpers.clean_data` variant maps the empty string to "UNKNOWN"). -/
theorem standardized_pair_never_null (p : Option String) :
    standardized_pair p ≠ none ∧
    standardized_pair none = some "UNKNOWN" ∧
    (p = some "nan" ∨ p = some "None" → standardized_pair p = some "UNKNOWN") ∧
    (∀ s, p = some s → s ≠ "nan" → s ≠ "None" →
      standardized_pair p = some ⟨(s.data.map Char.toUpper).filter (fun c => c ≠ ' ')⟩) := by
  refine ⟨?_, rfl, ?_, ?_⟩
  · cases p with
    | none => simp [standardized_pair, std_string_cell, clean_pair]
    | some s =>
      by_cases h : s = "nan" || s = "None" <;>
        simp [standardized_pair, std_string_cell, clean_pair, h]
  · rintro (rfl | rfl) <;> rfl
  · rintro s rfl h1 h2
    have h : (s = "nan" || s = "None") = false := by
      simp [h1, h2]
    simp [standardized_pair, std_string_cell, clean_pair, h]

/-- Witness for C7 (amended): the input pair "btc usdt" comes out as
"BTCUSDT", and a null pair as "UNKNOWN". -/
theorem standardized_pair_never_null_witness :
    standardized_pair (some "btc usdt") = some "BTCUSDT" ∧
    standardized_pair none = some "UNKNOWN" := by
  constructor
  · have h := (standardized_pair_never_null (some "btc usdt")).2.2.2
      "btc usdt" rfl (by decide) (by decide)
    rw [h]
    decide
  · exact (standardized_pair_never_null none).2.1

lemma validPoints_length_le (data : List (Option ℚ)) :
    (validPoints data).length ≤ data.length := by
  unfold validPoints
  calc (data.enum.filterMap _).length
      ≤ data.enum.length := List.length_filterMap_le _ _
    _ = data.length := List.enum_length

/-- Claim C8: trend classification yields the "insufficient_data" sentinel
whenever fewer than 2 valid (non-NaN) winrate points exist; with at least 2
valid points it classifies the OLS slope as strongly_improving (> 2),
improving (> 0.5), strongly_declining (< −2), declining (< −0.5) or stable
(the remaining band), applying the thresholds in that cascade order. -/
theorem winrate_trend_classification (data : List (Option ℚ)) :
    ((validPoints data).length < 2 →
      calculate_winrate_trend data = ⟨"insufficient_data", 0⟩) ∧
    (2 ≤ (validPoints data).length →
      (calculate_winrate_trend data).trend = classify_slope (olsSlope (validPoints data))) ∧
    (∀ s : ℚ,
      (2 < s → classify_slope s = "strongly_improving") ∧
      (1/2 < s → s ≤ 2 → classify_slope s = "improving") ∧
      (s < -2 → classify_slope s = "strongly_declining") ∧
      (-2 ≤ s → s < -1/2 → classify_slope s = "declining") ∧
      (-1/2 ≤ s → s ≤ 1/2 → classify_slope s = "stable")) := by
  refine ⟨?_, ?_, ?_⟩
  · intro h
    unfold calculate_winrate_trend
    split_ifs <;> rfl
  · intro h
    have hlen : ¬data.length < 2 := by
      have := validPoints_length_le data
      omega
    have hv : ¬(validPoints data).length < 2 := by omega
    unfold calculate_winrate_trend
    rw [if_neg hlen, if_neg hv]
  · intro s
    refine ⟨?_, ?_, ?_, ?_, ?_⟩ <;> intros <;> unfold classify_slope <;>
      split_ifs <;> first | rfl | linarith

/-- Witness for C8: the series [0, 10, 40] has 3 valid points and OLS slope
20 > 2, so its trend is "strongly_improving"; the one-point series [50] is
classified "insufficient_data". -/
theorem winrate_trend_classification_witness :
    (calculate_winrate_trend [some 0, some 10, some 40]).trend = "strongly_improving" ∧
    calculate_winrate_trend [some (50 : ℚ)] = ⟨"insufficient_data", 0⟩ := by
  constructor
  · have hv : validPoints [some 0, some 10, some 40] = [(0, 0), (1, 10), (2, 40)] := by
      norm_num [validPoints, List.enum, List.enumFrom, List.filterMap_cons]
    have h := (winrate_trend_classification [some 0, some 10, some 40]).2.1
      (by rw [hv]; norm_num)
    rw [h, hv]
    have hs : olsSlope [((0 : ℚ), (0 : ℚ)), (1, 10), (2, 40)] = 20 := by
      norm_num [olsSlope]
    rw [hs]
    have := ((winrate_trend_classification []).2.2 20).1 (by norm_num)
    rw [this]
  · exact (winrate_trend_classification [some (50 : ℚ)]).1
      (by norm_num [validPoints, List.enum, List.enumFrom, List.filterMap_cons])

lemma map_filterMap_key_sublist {β : Type} (g : β → String) (f : String → Option β)
    (h : ∀ a b, f a = some b → g b = a) :
    ∀ l : List String, ((l.filterMap f).map g).Sublist l := by
  intro l
  induction l with
  | nil => simp
  | cons a t ih =>
    cases hfa : f a with
    | none =>
      rw [List.filterMap_cons_none hfa]
      exact ih.cons a
    | some b =>
      rw [List.filterMap_cons_some hfa, List.map_cons, h a b hfa]
      exact ih.cons₂ a

lemma outcomesTable_keys_nodup (upd : List UpdateRow) :
    ((outcomesTable upd).map Prod.fst).Nodup := by
  have hsub : ((outcomesTable upd).map Prod.fst).Sublist (outcome_keys upd) := by
    apply map_filterMap_key_sublist
    intro a b hb
    rcases Option.map_eq_some'.mp hb with ⟨q, _, hpq⟩
    rw [← hpq]
  exact List.Nodup.sublist hsub (List.nodup_dedup _)

lemma filter_key_length_le_one (out : List (String × String × Nat))
    (hnd : (out.map Prod.fst).Nodup) (k : String) :
    (out.filter (fun o => o.1 = k)).length ≤ 1 := by
  induction out with
  | nil => simp
  | cons o t ih =>
    rw [List.map_cons] at hnd
    have hnd' := List.nodup_cons.mp hnd
    by_cases hk : o.1 = k
    · rw [List.filter_cons_of_pos (by simp [hk])]
      have ht : t.filter (fun o => o.1 = k) = [] := by
        apply List.filter_eq_nil_iff.mpr
        intro x hx
        simp only [decide_eq_true_eq]
        intro hxk
        exact hnd'.1 (hk ▸ hxk ▸ List.mem_map_of_mem Prod.fst hx)
      rw [ht]
      simp
    · rw [List.filter_cons_of_neg (by simp [hk])]
      exact ih hnd'.2

lemma mergeRow_length (out : List (String × String × Nat)) (srow : SigIdRow)
    (hnd : (out.map Prod.fst).Nodup) : (mergeRow out srow).length = 1 := by
  have hle := filter_key_length_le_one out hnd srow.signal_id
  unfold mergeRow
  cases hm : out.filter (fun o => o.1 = srow.signal_id) with
  | nil => rfl
  | cons m ms =>
    rw [hm] at hle
    cases ms with
    | nil => rfl
    | cons m2 ms2 => simp at hle

lemma leftMerge_length (sigs : List SigIdRow) (out : List (String × String × Nat))
    (hnd : (out.map Prod.fst).Nodup) :
    (leftMerge sigs out).length = sigs.length := by
  induction sigs with
  | nil => rfl
  | cons s t ih =>
    unfold leftMerge at ih ⊢
    rw [List.flatMap_cons, List.length_append, ih, mergeRow_length out s hnd,
      List.length_cons]
    omega

/-- Claim C9: the outcome table built by `calculate_final_outcomes` has at most
one row per signal id (its key column is duplicate-free), so the left merge of
any signals table with it in `compute_comprehensive_metrics` yields exactly one
row per input signal row. -/
theorem outcome_table_unique_merge_preserves_rows
    (upd : List UpdateRow) (sigs : List SigIdRow) :
    ((outcomesTable upd).map Prod.fst).Nodup ∧
    (leftMerge sigs (outcomesTable upd)).length = sigs.length :=
  ⟨outcomesTable_keys_nodup upd,
   leftMerge_length sigs _ (outcomesTable_keys_nodup upd)⟩

/-- Claim C10: for every time_range other than 'ytd', 'mtd', '30d' and '7d'
— in particular 'custom', 'all' and any unrecognized string — the winrate
path's `apply_time_range_filter` returns its input table unchanged. -/
theorem time_range_filter_identity (now : Int) (df : List PeriodRow) (tr : String)
    (h1 : tr ≠ "ytd") (h2 : tr ≠ "mtd") (h3 : tr ≠ "30d") (h4 : tr ≠ "7d") :
    apply_time_range_filter now df tr = df := by
  unfold apply_time_range_filter
  split_ifs <;> rfl

/-- Witness for C10: with time_range = "custom" the filter is the identity on
a concrete one-row table. -/
theorem time_range_filter_identity_witness :
    apply_time_range_filter 0 [⟨"a", 5, none⟩] "custom" = [⟨"a", 5, none⟩] :=
  time_range_filter_identity 0 [⟨"a", 5, none⟩] "custom"
    (by decide) (by decide) (by decide) (by decide)

end LuxQuant
